import Mathlib

/-!
Verification development for the scanner-router service (`src/index.js`).

The service resolves a raw scanned or typed input (URL, EAN, SKU, model code)
into a product-detail-page reference.  The core is shallowly embedded here:

* the code classifier (`isEAN`, `isModel`, `isSKU`, `isURL`);
* the candidate extractor (`extractCandidates`);
* the admin-GraphQL gateway (`adminGQL`) with the network abstracted as a
  pure oracle (`none` = transport failure, otherwise the JSON envelope);
* the resolution cascade (`resolveHandleFromCode`), instrumented with the
  ordered list of gateway queries it issues;
* the two route handlers (`scanLookup` for `GET /scan-lookup`,
  `rHandler` for `GET /r`).

JavaScript platform primitives that the source relies on are modelled
explicitly and conservatively:

* `String.prototype.trim` is modelled by `jsTrim` over the ASCII whitespace
  characters (the full JS definition also strips rarer Unicode whitespace,
  which no claim exercises);
* the WHATWG `URL` constructor is modelled by `parseURL` for the
  `http(s)://` inputs the extractor feeds it: authority up to the first
  `/`, `?` or `#`; parse failure exactly when the authority is empty
  (`new URL("https://")` throws); path/query/fragment split as in the URL
  standard.  Host canonicalisation, ports, userinfo and dot-segment
  normalisation are not modelled — no claim depends on them;
* `URLSearchParams.get` is modelled by `searchParamsGet`
  (`application/x-www-form-urlencoded`: split on `&`, first `=` separates
  key and value, `+` decodes to space, `%XX` decodes for ASCII bytes;
  multi-byte percent sequences are left undecoded, unexercised by claims);
* `encodeURIComponent` is modelled byte-faithfully over UTF-8.
-/

/-- ASCII whitespace stripped by the JS `trim` model. -/
def jsWhitespace (c : Char) : Bool :=
  c == ' ' || c == '\t' || c == '\n' || c == '\x0d' || c == '\x0b' || c == '\x0c'

/-- Drop whitespace from both ends of a character list. -/
def trimChars (l : List Char) : List Char :=
  List.rdropWhile jsWhitespace (List.dropWhile jsWhitespace l)

/-- Model of `String.prototype.trim`: drop whitespace from both ends. -/
def jsTrim (s : String) : String :=
  String.mk (trimChars s.data)

/-- Characters admitted by the regex class `[A-Z0-9._-]` with the `i` flag. -/
def isCodeChar (c : Char) : Bool :=
  c.isAlphanum || c == '.' || c == '_' || c == '-'

/-- `isEAN` from the source: `/^\d{8}$|^\d{12,14}$/` on the trimmed string. -/
def isEAN (s : String) : Bool :=
  let t := (jsTrim s).data
  (t.length == 8 || (decide (12 ≤ t.length) && decide (t.length ≤ 14)))
    && t.all Char.isDigit

/-- `isModel` from the source: `/^\d{6,8}$/` on the trimmed string. -/
def isModel (s : String) : Bool :=
  let t := (jsTrim s).data
  (decide (6 ≤ t.length) && decide (t.length ≤ 8)) && t.all Char.isDigit

/-- `isSKU` from the source: `/^[A-Z0-9._-]{5,}$/i` on the trimmed string. -/
def isSKU (s : String) : Bool :=
  let t := (jsTrim s).data
  decide (5 ≤ t.length) && t.all isCodeChar

/-- Case-insensitive literal match of `pat` at the front of `cs`. -/
def matchesCI (pat : String) (cs : List Char) : Bool :=
  (cs.take pat.length).map Char.toLower == pat.data

/-- `isURL` from the source: `/^https?:\/\//i` on the trimmed string. -/
def isURL (s : String) : Bool :=
  matchesCI "https://" (jsTrim s).data || matchesCI "http://" (jsTrim s).data

/-- Outcome of the WHATWG `URL` parse that the extractor consumes.
`search` is stored without the leading question mark; `hash` is stored as
JS exposes `u.hash` (empty, or with its leading `#`). -/
structure URLRec where
  host : String
  pathname : String
  search : String
  hash : String
deriving DecidableEq

/-- Strip a case-insensitive `https://` or `http://` scheme prefix. -/
def schemeSplit (s : String) : Option (List Char) :=
  if matchesCI "https://" s.data then some (s.data.drop 8)
  else if matchesCI "http://" s.data then some (s.data.drop 7)
  else none

/-- Model of `new URL(s)` for the scheme-prefixed strings the extractor
parses; `none` models the constructor throwing (empty authority, as for
`"https://"`). -/
def parseURL (s : String) : Option URLRec :=
  match schemeSplit s with
  | none => none
  | some rest =>
    let auth := rest.takeWhile fun c => !(c == '/') && !(c == '?') && !(c == '#')
    if auth.isEmpty then none
    else
      let rest2 := rest.drop auth.length
      let path := rest2.takeWhile fun c => !(c == '?') && !(c == '#')
      let afterPath := rest2.drop path.length
      let search :=
        if afterPath.head? == some '?' then (afterPath.drop 1).takeWhile (fun c => !(c == '#'))
        else []
      let fragChars := (afterPath.dropWhile (fun c => !(c == '#'))).drop 1
      some { host := String.mk auth
             pathname := if path.isEmpty then "/" else String.mk path
             search := String.mk search
             hash := if fragChars.isEmpty then "" else String.mk ('#' :: fragChars) }

/-- Hexadecimal digit value, if any. -/
def hexVal (c : Char) : Option Nat :=
  if '0' ≤ c && c ≤ '9' then some (c.toNat - 48)
  else if 'A' ≤ c && c ≤ 'F' then some (c.toNat - 55)
  else if 'a' ≤ c && c ≤ 'f' then some (c.toNat - 87)
  else none

/-- `application/x-www-form-urlencoded` decoding (`+` and ASCII `%XX`). -/
def percentDecodeAux : List Char → List Char
  | [] => []
  | '+' :: rest => ' ' :: percentDecodeAux rest
  | '%' :: h :: l :: rest =>
    match hexVal h, hexVal l with
    | some hv, some lv =>
      if hv * 16 + lv < 128 then Char.ofNat (hv * 16 + lv) :: percentDecodeAux rest
      else '%' :: percentDecodeAux (h :: l :: rest)
    | _, _ => '%' :: percentDecodeAux (h :: l :: rest)
  | c :: rest => c :: percentDecodeAux rest

/-- JS `String.prototype.split` with a one-character separator. -/
def splitOnChar (sep : Char) : List Char → List (List Char)
  | [] => [[]]
  | c :: rest =>
    if c == sep then [] :: splitOnChar sep rest
    else
      match splitOnChar sep rest with
      | [] => [[c]]
      | p :: ps => (c :: p) :: ps

/-- Key part of a `k=v` query piece (everything before the first `=`). -/
def pieceName (piece : List Char) : List Char :=
  piece.takeWhile fun c => !(c == '=')

/-- Value part of a `k=v` query piece (everything after the first `=`). -/
def pieceValue (piece : List Char) : List Char :=
  (piece.dropWhile fun c => !(c == '=')).drop 1

/-- Model of `u.searchParams.get(k)`: first pair whose decoded name is `k`. -/
def searchParamsGet (u : URLRec) (k : String) : Option String :=
  (((splitOnChar '&' u.search.data).filter fun p => !p.isEmpty).findSome?
    fun p =>
      if String.mk (percentDecodeAux (pieceName p)) == k then
        some (String.mk (percentDecodeAux (pieceValue p)))
      else none)

/-- Alternatives of the fragment regex `(ean|gtin|barcode|sku|model|code)=...`,
in the order the regex lists them. -/
def fragKeys : List String := ["ean", "gtin", "barcode", "sku", "model", "code"]

/-- One alternative of the fragment regex anchored at the head of `cs`:
the key `k` (case-insensitively), then `=`, then a maximal non-empty run of
code characters; returns the run (capture group 2). -/
def keyCapture (cs : List Char) (k : String) : Option (List Char) :=
  if matchesCI k cs then
    match cs.drop k.length with
    | '=' :: rest =>
      let run := rest.takeWhile isCodeChar
      if run.isEmpty then none else some run
    | _ => none
  else none

/-- Try the fragment regex anchored at the head of `cs`, alternatives in
regex order. -/
def keyValAt (cs : List Char) : Option (List Char) :=
  fragKeys.findSome? (keyCapture cs)

/-- Leftmost match of the fragment regex: scan positions left to right. -/
def fragSearch : List Char → Option (List Char)
  | [] => none
  | c :: rest =>
    match keyValAt (c :: rest) with
    | some v => some v
    | none => fragSearch rest

/-- The known query-parameter keys, in the order the source iterates them. -/
def candKeys : List String := ["ean", "gtin", "barcode", "sku", "model", "code", "id"]

/-- JS `Set.add` on an insertion-ordered set: keep the first-seen form. -/
def addSet (l : List String) (x : String) : List String :=
  if x ∈ l then l else l ++ [x]

/-- The accumulator function of the query-parameter loop of the extractor:
`if (v) out.add(v.trim())` for the value of one known key. -/
def paramStep (u : URLRec) (acc : List String) (k : String) : List String :=
  match searchParamsGet u k with
  | some v => if v == "" then acc else addSet acc (jsTrim v)
  | none => acc

/-- The path-segment step of the extractor: the last non-empty `/`-separated
segment of the pathname joins the set when it matches `/^[A-Z0-9._-]+$/i`. -/
def segStep (u : URLRec) (out : List String) : List String :=
  match ((splitOnChar '/' u.pathname.data).filter fun p => !p.isEmpty).getLast? with
  | some lastSeg =>
    if !lastSeg.isEmpty && lastSeg.all isCodeChar then addSet out (String.mk lastSeg) else out
  | none => out

/-- `u.hash.replace(/^#/, "")`: the hash minus one leading `#`. -/
def hashFrag (u : URLRec) : List Char :=
  match u.hash.data with
  | '#' :: t => t
  | t => t

/-- The fragment step of the extractor: the stripped hash is matched against
the fragment regex; the capture joins the set. -/
def fragStep (u : URLRec) (out : List String) : List String :=
  match fragSearch (hashFrag u) with
  | some v => addSet out (String.mk v)
  | none => out

/-- Candidates collected from a successfully parsed URL, in insertion order:
known query parameters, then the last non-empty path segment when it is
code-shaped, then the first fragment-regex capture. -/
def urlCandidates (u : URLRec) : List String :=
  fragStep u (segStep u (candKeys.foldl (paramStep u) []))

/-- Candidate list before the priority sort: URL-shaped input goes through
the URL parser (a parse failure leaves the set empty, mirroring the empty
`catch` block), anything else is its own sole candidate. -/
def rawCandidates (raw : String) : List String :=
  let s := jsTrim raw
  if isURL s then
    match parseURL s with
    | some u => urlCandidates u
    | none => []
  else addSet [] s

/-- The comparator score of the sort in `extractCandidates`. -/
def score (x : String) : Nat :=
  if isEAN x then 3 else if isSKU x then 2 else if isModel x then 1 else 0

/-- Sort relation of the extractor: descending score. -/
def scoreGE (a b : String) : Prop := score b ≤ score a

instance : DecidableRel scoreGE := fun a b => inferInstanceAs (Decidable (score b ≤ score a))

instance : IsTotal String scoreGE := ⟨fun a b => Nat.le_total (score b) (score a)⟩

instance : IsTrans String scoreGE := ⟨fun _ _ _ h1 h2 => Nat.le_trans h2 h1⟩

/-- `extractCandidates` from the source.  The argument is `Option String`
so that the JS-falsy inputs `null`/`undefined`/`""` of the `!raw` guard are
represented; the JS array sort under a consistent comparator is modelled by
the stable `List.insertionSort`. -/
def extractCandidates (raw : Option String) : List String :=
  match raw with
  | none => []
  | some raw =>
    if raw == "" then []
    else List.insertionSort scoreGE (rawCandidates raw)

example : extractCandidates (some "6401234") = ["6401234"] := by decide
example : extractCandidates (some "https://") = [] := by decide
example : extractCandidates (some " ") = [""] := by decide
example : extractCandidates (some "https://shop.example/p/123?ean=3608459693135")
    = ["3608459693135", "123"] := by decide

/-!
## Gateway and resolver

The network is abstracted as two pure oracles giving, per query string, what
`fetch` + `r.json()` would produce for the `VariantByQuery` and
`ProductsByQuery` documents: `none` models a transport failure (`fetch` or
`json()` throwing), otherwise the response envelope.  Response fields the
resolver never reads (variant `sku`/`barcode`, product `id`/`title`) are
omitted from the envelope payload model.
-/

/-- `v.product` of the variant query: the parent product and its handle. -/
structure ProductRef where
  handle : String
deriving DecidableEq

/-- `d.productVariants.edges[0]?.node` payload of `VariantByQuery`. -/
structure VariantNode where
  id : String
  product : Option ProductRef
deriving DecidableEq

/-- `d.products.edges[0]?.node` payload of `ProductsByQuery`:
its handle and `p.variants.edges[0]?.node?.id`. -/
structure ProductNode where
  handle : String
  firstVariantId : Option String
deriving DecidableEq

/-- Upstream JSON envelope: an optional `errors` field plus the data payload
the resolver destructures. -/
structure Envelope (α : Type) where
  errors : Option String
  payload : α
deriving DecidableEq

/-- `adminGQL` from the source: throws (`Except.error`) on transport failure
or whenever the envelope carries an `errors` field; otherwise returns the
`data` payload. -/
def adminGQL {α : Type} (net : Option (Envelope α)) : Except Unit α :=
  match net with
  | none => Except.error ()
  | some j => if j.errors.isSome then Except.error () else Except.ok j.payload

/-- A successful resolution: `{handle, variantId, source}`. -/
structure Resolution where
  handle : String
  variantId : Option String
  source : String
deriving DecidableEq

/-- A gateway query as issued by the resolver: which GraphQL document was
posted, and with which query-string variable. -/
inductive GQLQuery
  | variantQ (q : String)
  | productQ (q : String)
deriving DecidableEq

/-- Network oracle for the `VariantByQuery` document. -/
def NetV : Type := String → Option (Envelope (Option VariantNode))

/-- Network oracle for the `ProductsByQuery` document. -/
def NetP : Type := String → Option (Envelope (Option ProductNode))

/-- One variant-strategy block of the resolver: query, then
`if (v?.product?.handle)` (JS truthiness: handle present and non-empty)
return `{handle, variantId: v.id, source}`. -/
def tryVariant (netV : NetV) (q : String) (src : String) : Except Unit (Option Resolution) :=
  match adminGQL (netV q) with
  | Except.error e => Except.error e
  | Except.ok none => Except.ok none
  | Except.ok (some v) =>
    match v.product with
    | some p =>
      if p.handle == "" then Except.ok none
      else Except.ok (some { handle := p.handle, variantId := some v.id, source := src })
    | none => Except.ok none

/-- One product-strategy block of the resolver: query, then `if (p?.handle)`
return `{handle, variantId: first variant id, source}`. -/
def tryProduct (netP : NetP) (q : String) (src : String) : Except Unit (Option Resolution) :=
  match adminGQL (netP q) with
  | Except.error e => Except.error e
  | Except.ok none => Except.ok none
  | Except.ok (some p) =>
    if p.handle == "" then Except.ok none
    else Except.ok (some { handle := p.handle, variantId := p.firstVariantId, source := src })

/-- Strategy combinator mirroring the early-return structure of
`resolveHandleFromCode`: issue query `q`; an exception or a match ends the
cascade there, a miss falls through to the continuation.  The second
component records the gateway queries issued, in order. -/
def step (q : GQLQuery) (attempt : Except Unit (Option Resolution))
    (next : Except Unit (Option Resolution) × List GQLQuery) :
    Except Unit (Option Resolution) × List GQLQuery :=
  match attempt with
  | Except.error e => (Except.error e, [q])
  | Except.ok (some r) => (Except.ok (some r), [q])
  | Except.ok none => (next.1, q :: next.2)

/-- The query string of the exact-tag model strategy. -/
def modelTagQuery (c : String) : String := "tag:\"Model: " ++ c ++ "\""

/-- `resolveHandleFromCode` from the source, instrumented with the ordered
list of gateway queries it issues: barcode (if EAN-shaped), sku (if
SKU-shaped), model tag then model free-text (if model-shaped), then free
text for anything, first hit wins. -/
def resolveHandleFromCode (netV : NetV) (netP : NetP) (code : String) :
    Except Unit (Option Resolution) × List GQLQuery :=
  let c := jsTrim code
  let s4 := step (GQLQuery.productQ c) (tryProduct netP c "search:any") (Except.ok none, [])
  let s3 :=
    if isModel c then
      step (GQLQuery.productQ (modelTagQuery c)) (tryProduct netP (modelTagQuery c) "tag:model")
        (step (GQLQuery.productQ c) (tryProduct netP c "search:model") s4)
    else s4
  let s2 :=
    if isSKU c then
      step (GQLQuery.variantQ ("sku:" ++ c)) (tryVariant netV ("sku:" ++ c) "sku") s3
    else s3
  if isEAN c then
    step (GQLQuery.variantQ ("barcode:" ++ c)) (tryVariant netV ("barcode:" ++ c) "barcode") s2
  else s2

/-!
## Route handlers

`GET /scan-lookup` and `GET /r`, with the Express plumbing reduced to the
values that reach the response: the `raw` query parameter (`none` models a
missing parameter, and `""` is JS-falsy like in the source's `!raw` guard),
and the response as data.
-/

/-- The UTF-8 bytes of a character, as naturals below 256. -/
def utf8Bytes (c : Char) : List Nat :=
  let n := c.toNat
  if n < 128 then [n]
  else if n < 2048 then [192 + n / 64, 128 + n % 64]
  else if n < 65536 then [224 + n / 4096, 128 + n / 64 % 64, 128 + n % 64]
  else [240 + n / 262144, 128 + n / 4096 % 64, 128 + n / 64 % 64, 128 + n % 64]

/-- Uppercase hexadecimal digit for `n < 16`. -/
def hexDigitU (n : Nat) : Char :=
  if n < 10 then Char.ofNat (48 + n) else Char.ofNat (55 + n)

/-- The characters `encodeURIComponent` leaves unescaped. -/
def uriUnreserved (c : Char) : Bool :=
  c.isAlphanum || c == '-' || c == '_' || c == '.' || c == '!' || c == '~' ||
    c == '*' || c == '\'' || c == '(' || c == ')'

/-- ECMAScript `encodeURIComponent`: percent-encode every UTF-8 byte of
every character outside the unreserved set. -/
def encodeURIComponent (s : String) : String :=
  String.mk ((s.data.map fun c =>
    if uriUnreserved c then [c]
    else ((utf8Bytes c).map fun b => ['%', hexDigitU (b / 16), hexDigitU (b % 16)]).flatten).flatten)

/-- The search-fallback URL built from the raw input, as in the source's
`https://decathlon.re/search?q=${encodeURIComponent(String(raw).trim())}`. -/
def searchUrl (raw : String) : String :=
  "https://decathlon.re/search?q=" ++ encodeURIComponent (jsTrim raw)

/-- JS `s.split("/").pop()`: the last `/`-separated segment. -/
def jsSplitPop (s : String) : String :=
  String.mk ((splitOnChar '/' s.data).getLastD [])

/-- The product URL of both handlers: `variantIdShort` is the trailing
segment of the variant id, and the `?variant=` suffix is attached only when
that segment is JS-truthy. -/
def buildProductUrl (handle : String) (variantId : Option String) : String :=
  match variantId with
  | some vid =>
    if jsSplitPop vid == "" then "https://decathlon.re/products/" ++ handle
    else "https://decathlon.re/products/" ++ handle ++ "?variant=" ++ jsSplitPop vid
  | none => "https://decathlon.re/products/" ++ handle

/-- The `for (const cand of candidates)` loop shared by both handlers:
first candidate whose resolution has a JS-truthy handle wins; a gateway
exception aborts the loop. -/
def loopResolve (netV : NetV) (netP : NetP) : List String → Except Unit (Option Resolution)
  | [] => Except.ok none
  | cand :: rest =>
    match (resolveHandleFromCode netV netP cand).1 with
    | Except.error e => Except.error e
    | Except.ok (some r) =>
      if r.handle == "" then loopResolve netV netP rest else Except.ok (some r)
    | Except.ok none => loopResolve netV netP rest

/-- Response of `GET /scan-lookup`.  `json` carries the handle, variant id,
source tag, URL and tried-candidate list of the JSON body (the fallback body
has no variant id). -/
inductive ScanResponse
  | badRequest
  | json (handle : Option String) (variantId : Option String) (source : String)
      (url : String) (tried : List String)
  | serverError
deriving DecidableEq

/-- The `/scan-lookup` handler from the source. -/
def scanLookup (netV : NetV) (netP : NetP) (raw : Option String) : ScanResponse :=
  match raw with
  | none => ScanResponse.badRequest
  | some raw =>
    if raw == "" then ScanResponse.badRequest
    else
      let candidates := extractCandidates (some raw)
      match loopResolve netV netP candidates with
      | Except.error _ => ScanResponse.serverError
      | Except.ok (some r) =>
        ScanResponse.json (some r.handle) r.variantId r.source
          (buildProductUrl r.handle r.variantId) candidates
      | Except.ok none =>
        ScanResponse.json none none "fallback:search" (searchUrl raw) candidates

/-- Response of `GET /r`. -/
inductive RResponse
  | badRequest
  | redirect (url : String)
deriving DecidableEq

/-- The `/r` handler from the source: like `/scan-lookup` but it redirects,
and a gateway exception degrades to the search-fallback redirect. -/
def rHandler (netV : NetV) (netP : NetP) (raw : Option String) : RResponse :=
  match raw with
  | none => RResponse.badRequest
  | some raw =>
    if raw == "" then RResponse.badRequest
    else
      let candidates := extractCandidates (some raw)
      match loopResolve netV netP candidates with
      | Except.error _ => RResponse.redirect (searchUrl raw)
      | Except.ok (some r) => RResponse.redirect (buildProductUrl r.handle r.variantId)
      | Except.ok none => RResponse.redirect (searchUrl raw)

/-!
## Concrete network oracles used in the evaluations below
-/

deriving instance DecidableEq for Except

/-- Variant oracle: every call succeeds with an empty match. -/
def netVMiss : NetV := fun _ => some { errors := none, payload := none }

/-- Product oracle: every call succeeds with an empty match. -/
def netPMiss : NetP := fun _ => some { errors := none, payload := none }

/-- Variant oracle: the transport fails on every call. -/
def netVDown : NetV := fun _ => none

/-- Product oracle: the transport fails on every call. -/
def netPDown : NetP := fun _ => none

/-- Variant oracle: every query matches a variant of product `some-product`. -/
def netVHit : NetV := fun _ =>
  some { errors := none,
         payload := some { id := "gid://shopify/ProductVariant/12345",
                           product := some { handle := "some-product" } } }

/-- Product oracle: every query matches a product `bare-product` that has no
variants at all. -/
def netPNoVariant : NetP := fun _ =>
  some { errors := none, payload := some { handle := "bare-product", firstVariantId := none } }

example :
    resolveHandleFromCode netVMiss netPMiss "123456" =
      (Except.ok none,
       [GQLQuery.variantQ "sku:123456", GQLQuery.productQ (modelTagQuery "123456"),
        GQLQuery.productQ "123456", GQLQuery.productQ "123456"]) := by decide

example :
    scanLookup netVMiss netPMiss (some "ABCDE") =
      ScanResponse.json none none "fallback:search" "https://decathlon.re/search?q=ABCDE"
        ["ABCDE"] := by decide

example : scanLookup netVDown netPDown (some "ABCDE") = ScanResponse.serverError := by decide

example :
    rHandler netVDown netPDown (some "ABCDE") =
      RResponse.redirect "https://decathlon.re/search?q=ABCDE" := by decide

example :
    scanLookup netVHit netPMiss (some "ABCDE") =
      ScanResponse.json (some "some-product") (some "gid://shopify/ProductVariant/12345") "sku"
        "https://decathlon.re/products/some-product?variant=12345" ["ABCDE"] := by decide

example :
    scanLookup netVMiss netPNoVariant (some "ABCDE") =
      ScanResponse.json (some "bare-product") none "search:any"
        "https://decathlon.re/products/bare-product" ["ABCDE"] := by decide

/-!
## Properties of the trim model
-/

theorem head_not_of_dropWhile_eq_self {p : Char → Bool} {b : Char} {rest : List Char}
    (h : List.dropWhile p (b :: rest) = b :: rest) : p b = false := by
  by_contra hb
  rw [Bool.not_eq_false] at hb
  rw [List.dropWhile_cons, if_pos hb] at h
  have hle := ( List.dropWhile_suffix p (l := rest)).sublist.length_le
  rw [h] at hle
  simp at hle

theorem dropWhile_of_rdropWhile {p : Char → Bool} {A : List Char}
    (hA : List.dropWhile p A = A) :
    List.dropWhile p (List.rdropWhile p A) = List.rdropWhile p A := by
  obtain ⟨t, ht⟩ := List.rdropWhile_prefix p A
  set B := List.rdropWhile p A with hB
  cases hBc : B with
  | nil => simp
  | cons b B' =>
    have hA' : List.dropWhile p (b :: (B' ++ t)) = b :: (B' ++ t) := by
      have hval : b :: (B' ++ t) = A := by rw [← ht, hBc]; simp
      rw [hval]; exact hA
    rw [List.dropWhile_cons, head_not_of_dropWhile_eq_self hA']
    simp

theorem trimChars_idem (l : List Char) : trimChars (trimChars l) = trimChars l := by
  unfold trimChars
  rw [dropWhile_of_rdropWhile (List.dropWhile_idempotent _ _), List.rdropWhile_idempotent]

theorem trimChars_eq_self {l : List Char} (h : ∀ c ∈ l, jsWhitespace c = false) :
    trimChars l = l := by
  unfold trimChars
  have h1 : List.dropWhile jsWhitespace l = l := by
    rw [List.dropWhile_eq_self_iff]
    intro hl
    have hm := List.get_mem l 0 hl
    rw [List.get_eq_getElem] at hm
    have := h _ hm
    simp [this]
  rw [h1]
  apply List.rdropWhile_eq_self_iff.mpr
  intro hl
  have := h _ (List.getLast_mem hl)
  simp [this]

theorem jsTrim_idem (s : String) : jsTrim (jsTrim s) = jsTrim s :=
  congrArg String.mk (trimChars_idem s.data)

theorem jsTrim_eq_self {s : String} (h : ∀ c ∈ s.data, jsWhitespace c = false) :
    jsTrim s = s := by
  cases s with
  | mk l => exact congrArg String.mk (trimChars_eq_self h)

theorem isCodeChar_not_ws {c : Char} (h : isCodeChar c = true) : jsWhitespace c = false := by
  cases hws : jsWhitespace c with
  | false => rfl
  | true =>
    exfalso
    simp only [jsWhitespace, Bool.or_eq_true, beq_iff_eq] at hws
    rcases hws with ((((rfl | rfl) | rfl) | rfl) | rfl) | rfl <;> exact absurd h (by decide)

theorem jsTrim_eq_self_of_code {s : String} (h : ∀ c ∈ s.data, isCodeChar c = true) :
    jsTrim s = s :=
  jsTrim_eq_self fun c hc => isCodeChar_not_ws (h c hc)

/-!
## Properties of the candidate extractor
-/

theorem addSet_mem {l : List String} {x c : String} (h : c ∈ addSet l x) : c ∈ l ∨ c = x := by
  unfold addSet at h
  split at h
  · exact Or.inl h
  · rcases List.mem_append.mp h with h | h
    · exact Or.inl h
    · exact Or.inr (List.mem_singleton.mp h)

theorem addSet_nodup {l : List String} {x : String} (h : l.Nodup) : (addSet l x).Nodup := by
  unfold addSet
  split
  · exact h
  · rename_i hx
    rw [List.nodup_append]
    refine ⟨h, List.nodup_singleton x, ?_⟩
    intro a ha hax
    rw [List.mem_singleton.mp hax] at ha
    exact hx ha

theorem paramStep_nodup {u : URLRec} {acc : List String} {k : String} (h : acc.Nodup) :
    (paramStep u acc k).Nodup := by
  unfold paramStep
  cases searchParamsGet u k with
  | none => exact h
  | some v =>
    dsimp only
    split
    · exact h
    · exact addSet_nodup h

theorem paramStep_trimmed {u : URLRec} {acc : List String} {k : String}
    (h : ∀ c ∈ acc, jsTrim c = c) : ∀ c ∈ paramStep u acc k, jsTrim c = c := by
  unfold paramStep
  cases searchParamsGet u k with
  | none => exact h
  | some v =>
    dsimp only
    split
    · exact h
    · intro c hc
      rcases addSet_mem hc with hc | rfl
      · exact h c hc
      · exact jsTrim_idem v

theorem foldl_paramStep_nodup (u : URLRec) (keys : List String) (acc : List String)
    (h : acc.Nodup) : (keys.foldl (paramStep u) acc).Nodup := by
  induction keys generalizing acc with
  | nil => exact h
  | cons k ks ih => exact ih _ (paramStep_nodup h)

theorem foldl_paramStep_trimmed (u : URLRec) (keys : List String) (acc : List String)
    (h : ∀ c ∈ acc, jsTrim c = c) :
    ∀ c ∈ keys.foldl (paramStep u) acc, jsTrim c = c := by
  induction keys generalizing acc with
  | nil => exact h
  | cons k ks ih => exact ih _ (paramStep_trimmed h)

theorem keyCapture_code {cs : List Char} {k : String} {v : List Char}
    (h : keyCapture cs k = some v) : ∀ c ∈ v, isCodeChar c = true := by
  unfold keyCapture at h
  split at h
  · split at h
    · rename_i rest heq
      dsimp only at h
      split at h
      · exact absurd h (by simp)
      · intro c hc
        rw [Option.some.injEq] at h
        rw [← h] at hc
        exact List.mem_takeWhile_imp hc
    · exact absurd h (by simp)
  · exact absurd h (by simp)

theorem keyValAt_code {keys : List String} {cs : List Char} {v : List Char}
    (h : keys.findSome? (keyCapture cs) = some v) : ∀ c ∈ v, isCodeChar c = true := by
  induction keys with
  | nil => exact absurd h (by simp)
  | cons k ks ih =>
    rw [List.findSome?_cons] at h
    cases hk : keyCapture cs k with
    | some w =>
      rw [hk] at h
      rw [Option.some.injEq] at h
      rw [← h]
      exact keyCapture_code hk
    | none =>
      rw [hk] at h
      exact ih h

theorem fragSearch_code {l v : List Char} (h : fragSearch l = some v) :
    ∀ c ∈ v, isCodeChar c = true := by
  induction l with
  | nil => exact absurd h (by simp [fragSearch])
  | cons c rest ih =>
    rw [fragSearch] at h
    cases hkv : keyValAt (c :: rest) with
    | some w =>
      rw [hkv] at h
      rw [Option.some.injEq] at h
      rw [← h]
      exact keyValAt_code hkv
    | none =>
      rw [hkv] at h
      exact ih h

theorem segStep_nodup {u : URLRec} {out : List String} (h : out.Nodup) :
    (segStep u out).Nodup := by
  unfold segStep
  split
  · split
    · exact addSet_nodup h
    · exact h
  · exact h

theorem segStep_trimmed {u : URLRec} {out : List String}
    (h : ∀ c ∈ out, jsTrim c = c) : ∀ c ∈ segStep u out, jsTrim c = c := by
  unfold segStep
  split
  · rename_i lastSeg heq
    split
    · rename_i hcode
      intro c hc
      rcases addSet_mem hc with hc | rfl
      · exact h c hc
      · apply jsTrim_eq_self_of_code
        intro ch hch
        rw [Bool.and_eq_true, List.all_eq_true] at hcode
        exact hcode.2 ch hch
    · exact h
  · exact h

theorem fragStep_nodup {u : URLRec} {out : List String} (h : out.Nodup) :
    (fragStep u out).Nodup := by
  unfold fragStep
  split
  · exact addSet_nodup h
  · exact h

theorem fragStep_trimmed {u : URLRec} {out : List String}
    (h : ∀ c ∈ out, jsTrim c = c) : ∀ c ∈ fragStep u out, jsTrim c = c := by
  unfold fragStep
  split
  · rename_i v heq
    intro c hc
    rcases addSet_mem hc with hc | rfl
    · exact h c hc
    · exact jsTrim_eq_self_of_code (fragSearch_code heq)
  · exact h

theorem urlCandidates_nodup (u : URLRec) : (urlCandidates u).Nodup :=
  fragStep_nodup (segStep_nodup (foldl_paramStep_nodup u candKeys [] List.nodup_nil))

theorem urlCandidates_trimmed (u : URLRec) : ∀ c ∈ urlCandidates u, jsTrim c = c :=
  fragStep_trimmed (segStep_trimmed (foldl_paramStep_trimmed u candKeys [] (by simp)))

theorem rawCandidates_nodup (raw : String) : (rawCandidates raw).Nodup := by
  unfold rawCandidates
  dsimp only
  split
  · split
    · exact urlCandidates_nodup _
    · exact List.nodup_nil
  · exact addSet_nodup List.nodup_nil

theorem rawCandidates_trimmed (raw : String) : ∀ c ∈ rawCandidates raw, jsTrim c = c := by
  unfold rawCandidates
  dsimp only
  split
  · split
    · exact urlCandidates_trimmed _
    · simp
  · intro c hc
    rcases addSet_mem hc with hc | rfl
    · exact absurd hc (by simp)
    · exact jsTrim_idem raw

theorem ean_precedes {out : List String} (hs : List.Sorted scoreGE out) {a b : String}
    (ha : a ∈ out) (hb : b ∈ out) (hea : isEAN a = true) (heb : isEAN b = false) :
    out.indexOf a < out.indexOf b := by
  have hna := List.indexOf_lt_length.mpr ha
  have hnb := List.indexOf_lt_length.mpr hb
  by_contra hcon
  push_neg at hcon
  have hne : out.indexOf a ≠ out.indexOf b := by
    intro he
    have hab : a = b := by
      rw [← List.indexOf_get hna, ← List.indexOf_get hnb]
      exact congrArg out.get (Fin.ext he)
    rw [hab] at hea
    rw [hea] at heb
    cases heb
  have hlt : out.indexOf b < out.indexOf a := lt_of_le_of_ne hcon fun h => hne h.symm
  have hrel := List.Sorted.rel_get_of_lt hs
    (a := ⟨out.indexOf b, hnb⟩) (b := ⟨out.indexOf a, hna⟩) (Fin.mk_lt_mk.mpr hlt)
  rw [List.indexOf_get, List.indexOf_get] at hrel
  unfold scoreGE at hrel
  have hsa : score a = 3 := by simp [score, hea]
  have hsb : score b ≤ 2 := by
    simp only [score, heb, Bool.false_eq_true, if_false]
    split
    · omega
    · split <;> omega
  omega

/-!
## Claim theorems: the candidate extractor
-/

/-- C1: evaluation of the code at the claimed input.  For `"https://"` the
URL parse fails, the `catch` block adds nothing, and `extractCandidates`
returns the empty list — not a list containing the trimmed original string
as the claim (and the source's own `catch` comment about falling back to
the raw string) state. -/
theorem extractCandidates_malformed_url : extractCandidates (some "https://") = [] := by
  decide

/-- C2 counterexample: a whitespace-only raw input is JS-truthy, trims to
the empty string, is not URL-shaped, and so becomes the sole candidate:
the extractor emits an empty-string candidate, refuting the claim that
candidates are non-empty after trimming. -/
theorem extractCandidates_empty_candidate_cex :
    extractCandidates (some " ") = [""] ∧ "" ∈ extractCandidates (some " ") := by
  decide

/-- C2 (amended): every candidate produced by `extractCandidates` is
trim-stable (it carries no leading or trailing whitespace); candidates can
however be the empty string, e.g. for whitespace-only raw input. -/
theorem extractCandidates_trim_stable (raw : Option String) (c : String)
    (hc : c ∈ extractCandidates raw) : jsTrim c = c := by
  unfold extractCandidates at hc
  cases raw with
  | none => exact absurd hc (by simp)
  | some raw =>
    dsimp only at hc
    split at hc
    · exact absurd hc (by simp)
    · exact rawCandidates_trimmed raw c
        (( List.perm_insertionSort scoreGE (rawCandidates raw)).mem_iff.mp hc)

/-- Witness for C2 (amended) at a concrete input. -/
theorem extractCandidates_trim_stable_witness :
    "ABC" ∈ extractCandidates (some "ABC") ∧ jsTrim "ABC" = "ABC" :=
  ⟨by decide, extractCandidates_trim_stable (some "ABC") "ABC" (by decide)⟩

/-- C5: `extractCandidates` is a total function of its input (it is a Lean
`def`, hence never throws), and the JS-falsy inputs — a missing (`null`/
`undefined`) or empty raw string — yield the empty candidate sequence. -/
theorem extractCandidates_total_empty :
    extractCandidates none = [] ∧ extractCandidates (some "") = [] := by
  decide

/-- C7: the output of `extractCandidates` never contains duplicate strings:
candidates are collected into an insertion-ordered set (first-seen form
retained) and the sort only permutes them. -/
theorem extractCandidates_nodup (raw : Option String) : (extractCandidates raw).Nodup := by
  unfold extractCandidates
  cases raw with
  | none => exact List.nodup_nil
  | some raw =>
    dsimp only
    split
    · exact List.nodup_nil
    · exact ( List.perm_insertionSort scoreGE (rawCandidates raw)).symm.nodup
        (rawCandidates_nodup raw)

/-- C6: for every input, the output of `extractCandidates` is sorted by
descending priority score (EAN-shaped 3, SKU-shaped 2, model-shaped 1,
else 0), and, in particular, an EAN-shaped candidate precedes every
non-EAN-shaped one in that output. -/
theorem extractCandidates_priority_sorted (raw : Option String) :
    List.Sorted scoreGE (extractCandidates raw) ∧
      ∀ a b : String, a ∈ extractCandidates raw → b ∈ extractCandidates raw →
        isEAN a = true → isEAN b = false →
        (extractCandidates raw).indexOf a < (extractCandidates raw).indexOf b := by
  have hs : List.Sorted scoreGE (extractCandidates raw) := by
    unfold extractCandidates
    cases raw with
    | none => exact List.sorted_nil
    | some raw =>
      dsimp only
      split
      · exact List.sorted_nil
      · exact List.sorted_insertionSort scoreGE (rawCandidates raw)
  exact ⟨hs, fun a b ha hb hea heb => ean_precedes hs ha hb hea heb⟩

/-- Witness for C6 at the spec's own example URL: the output is sorted and
the EAN-shaped query parameter ranks before the path segment `123`. -/
theorem extractCandidates_priority_sorted_witness :
    List.Sorted scoreGE (extractCandidates (some "https://shop.example/p/123?ean=3608459693135")) ∧
      (extractCandidates (some "https://shop.example/p/123?ean=3608459693135")).indexOf
          "3608459693135" <
        (extractCandidates (some "https://shop.example/p/123?ean=3608459693135")).indexOf "123" :=
  ⟨(extractCandidates_priority_sorted
      (some "https://shop.example/p/123?ean=3608459693135")).1,
    (extractCandidates_priority_sorted
        (some "https://shop.example/p/123?ean=3608459693135")).2
      "3608459693135" "123" (by decide) (by decide) (by decide) (by decide)⟩

/-- C10: a model-shaped string (6–8 digits) always matches the SKU pattern
(alphanumerics and `._-`, length at least 5), so the comparator score never
takes the value 1: the model tier of the sort is unreachable. -/
theorem isModel_implies_isSKU (s : String) :
    (isModel s = true → isSKU s = true) ∧ score s ≠ 1 := by
  have himp : isModel s = true → isSKU s = true := by
    intro h
    simp only [isModel, Bool.and_eq_true, decide_eq_true_eq, List.all_eq_true] at h
    obtain ⟨⟨h6, h8⟩, hdig⟩ := h
    simp only [isSKU, Bool.and_eq_true, decide_eq_true_eq, List.all_eq_true]
    refine ⟨by omega, fun c hc => ?_⟩
    have hd := hdig c hc
    simp [isCodeChar, Char.isAlphanum, hd]
  refine ⟨himp, ?_⟩
  unfold score
  split
  · omega
  · split
    · omega
    · split
      · rename_i hsku hmod
        exact absurd (himp hmod) hsku
      · omega

/-- Witness for C10 at a concrete model code. -/
theorem isModel_implies_isSKU_witness :
    isSKU "123456" = true ∧ score "123456" ≠ 1 :=
  ⟨(isModel_implies_isSKU "123456").1 (by decide), (isModel_implies_isSKU "123456").2⟩

/-!
## Claim theorems: the resolution cascade
-/

/-- The full ordered list of gateway queries the cascade would issue for a
trimmed code `c` if every strategy missed: barcode (if EAN-shaped), sku (if
SKU-shaped), model tag and model free text (if model-shaped), then the
unconditional free-text query. -/
def fullStrategyQueries (c : String) : List GQLQuery :=
  (if isEAN c then [GQLQuery.variantQ ("barcode:" ++ c)] else []) ++
    (if isSKU c then [GQLQuery.variantQ ("sku:" ++ c)] else []) ++
      (if isModel c then [GQLQuery.productQ (modelTagQuery c), GQLQuery.productQ c] else []) ++
        [GQLQuery.productQ c]

/-- `Leads l L`: the issued-query trace `l` is an initial segment of `L`. -/
def Leads (l L : List GQLQuery) : Prop := ∃ rest, l ++ rest = L

/-- Whether the gateway reply for a query yields a product handle
(JS-truthy: present and non-empty), i.e. whether that strategy matches. -/
def querySucceeds (netV : NetV) (netP : NetP) : GQLQuery → Bool
  | GQLQuery.variantQ q =>
    match netV q with
    | some j =>
      j.errors.isNone &&
        (match j.payload with
         | some v =>
           (match v.product with
            | some p => !(p.handle == "")
            | none => false)
         | none => false)
    | none => false
  | GQLQuery.productQ q =>
    match netP q with
    | some j =>
      j.errors.isNone &&
        (match j.payload with
         | some p => !(p.handle == "")
         | none => false)
    | none => false

/-- A trace that stops exactly at its first matching query: all but the
last query missed, and the last one matched. -/
def GoodTrace (S : GQLQuery → Bool) (l : List GQLQuery) : Prop :=
  ∃ t q, l = t ++ [q] ∧ S q = true ∧ ∀ x ∈ t, S x = false

theorem step_leads {q : GQLQuery} {a : Except Unit (Option Resolution)}
    {next : Except Unit (Option Resolution) × List GQLQuery} {rest : List GQLQuery}
    (h : Leads next.2 rest) : Leads (step q a next).2 (q :: rest) := by
  unfold step
  cases a with
  | error e => exact ⟨rest, rfl⟩
  | ok o =>
    cases o with
    | some r => exact ⟨rest, rfl⟩
    | none =>
      obtain ⟨t, ht⟩ := h
      exact ⟨t, by rw [List.cons_append, ht]⟩

theorem tryVariant_spec (netV : NetV) (netP : NetP) (q src : String) :
    (tryVariant netV q src = Except.error () ∧
        querySucceeds netV netP (GQLQuery.variantQ q) = false) ∨
      (tryVariant netV q src = Except.ok none ∧
        querySucceeds netV netP (GQLQuery.variantQ q) = false) ∨
      (∃ r, tryVariant netV q src = Except.ok (some r) ∧
        querySucceeds netV netP (GQLQuery.variantQ q) = true) := by
  unfold tryVariant querySucceeds adminGQL
  dsimp only
  cases hn : netV q with
  | none => exact Or.inl ⟨rfl, rfl⟩
  | some j =>
    cases hje : j.errors with
    | some e => exact Or.inl ⟨by simp [hje], by simp [hje]⟩
    | none =>
      cases hjp : j.payload with
      | none => exact Or.inr (Or.inl ⟨by simp [hje, hjp], by simp [hje, hjp]⟩)
      | some v =>
        cases hvp : v.product with
        | none => exact Or.inr (Or.inl ⟨by simp [hje, hjp, hvp], by simp [hje, hjp, hvp]⟩)
        | some p =>
          by_cases hh : p.handle == ""
          · exact Or.inr (Or.inl ⟨by simp [hje, hjp, hvp, hh], by simp [hje, hjp, hvp, hh]⟩)
          · exact Or.inr (Or.inr ⟨{ handle := p.handle, variantId := some v.id, source := src },
              by simp [hje, hjp, hvp, hh], by simp [hje, hjp, hvp, hh]⟩)

theorem tryProduct_spec (netV : NetV) (netP : NetP) (q src : String) :
    (tryProduct netP q src = Except.error () ∧
        querySucceeds netV netP (GQLQuery.productQ q) = false) ∨
      (tryProduct netP q src = Except.ok none ∧
        querySucceeds netV netP (GQLQuery.productQ q) = false) ∨
      (∃ r, tryProduct netP q src = Except.ok (some r) ∧
        querySucceeds netV netP (GQLQuery.productQ q) = true) := by
  unfold tryProduct querySucceeds adminGQL
  dsimp only
  cases hn : netP q with
  | none => exact Or.inl ⟨rfl, rfl⟩
  | some j =>
    cases hje : j.errors with
    | some e => exact Or.inl ⟨by simp [hje], by simp [hje]⟩
    | none =>
      cases hjp : j.payload with
      | none => exact Or.inr (Or.inl ⟨by simp [hje, hjp], by simp [hje, hjp]⟩)
      | some p =>
        by_cases hh : p.handle == ""
        · exact Or.inr (Or.inl ⟨by simp [hje, hjp, hh], by simp [hje, hjp, hh]⟩)
        · exact Or.inr (Or.inr ⟨{ handle := p.handle, variantId := p.firstVariantId, source := src },
            by simp [hje, hjp, hh], by simp [hje, hjp, hh]⟩)

theorem tryVariant_hit {netV : NetV} {netP : NetP} {q src : String} :
    ∀ r, tryVariant netV q src = Except.ok (some r) →
      querySucceeds netV netP (GQLQuery.variantQ q) = true := by
  intro r hr
  rcases tryVariant_spec netV netP q src with ⟨he, _⟩ | ⟨hn, _⟩ | ⟨r', _, hs⟩
  · rw [he] at hr; exact absurd hr (by simp)
  · rw [hn] at hr; exact absurd hr (by simp)
  · exact hs

theorem tryVariant_miss {netV : NetV} {netP : NetP} {q src : String}
    (h : tryVariant netV q src = Except.ok none) :
    querySucceeds netV netP (GQLQuery.variantQ q) = false := by
  rcases tryVariant_spec netV netP q src with ⟨he, _⟩ | ⟨_, hs⟩ | ⟨r', hr', _⟩
  · rw [he] at h; exact absurd h (by simp)
  · exact hs
  · rw [hr'] at h; exact absurd h (by simp)

theorem tryProduct_hit {netV : NetV} {netP : NetP} {q src : String} :
    ∀ r, tryProduct netP q src = Except.ok (some r) →
      querySucceeds netV netP (GQLQuery.productQ q) = true := by
  intro r hr
  rcases tryProduct_spec netV netP q src with ⟨he, _⟩ | ⟨hn, _⟩ | ⟨r', _, hs⟩
  · rw [he] at hr; exact absurd hr (by simp)
  · rw [hn] at hr; exact absurd hr (by simp)
  · exact hs

theorem tryProduct_miss {netV : NetV} {netP : NetP} {q src : String}
    (h : tryProduct netP q src = Except.ok none) :
    querySucceeds netV netP (GQLQuery.productQ q) = false := by
  rcases tryProduct_spec netV netP q src with ⟨he, _⟩ | ⟨_, hs⟩ | ⟨r', hr', _⟩
  · rw [he] at h; exact absurd h (by simp)
  · exact hs
  · rw [hr'] at h; exact absurd h (by simp)

theorem step_good {S : GQLQuery → Bool} {q : GQLQuery} {a : Except Unit (Option Resolution)}
    {next : Except Unit (Option Resolution) × List GQLQuery}
    (h1 : ∀ r, a = Except.ok (some r) → S q = true)
    (h2 : a = Except.ok none → S q = false)
    (h3 : ∀ r, next.1 = Except.ok (some r) → GoodTrace S next.2) :
    ∀ r, (step q a next).1 = Except.ok (some r) → GoodTrace S (step q a next).2 := by
  intro r hr
  unfold step at hr ⊢
  cases a with
  | error e => exact absurd hr (by simp)
  | ok o =>
    cases o with
    | some r' => exact ⟨[], q, rfl, h1 r' rfl, by simp⟩
    | none =>
      obtain ⟨t, q', ht, hq', hall⟩ := h3 r hr
      refine ⟨q :: t, q', by rw [List.cons_append, ht], hq', ?_⟩
      intro x hx
      rcases List.mem_cons.mp hx with rfl | hx
      · exact h2 rfl
      · exact hall x hx

theorem base_good {S : GQLQuery → Bool} :
    ∀ r, ((Except.ok none : Except Unit (Option Resolution)),
        ([] : List GQLQuery)).1 = Except.ok (some r) → GoodTrace S [] :=
  fun _ hr => absurd hr (by simp)

theorem resolve_leads (netV : NetV) (netP : NetP) (code : String) :
    Leads (resolveHandleFromCode netV netP code).2 (fullStrategyQueries (jsTrim code)) := by
  unfold resolveHandleFromCode fullStrategyQueries
  cases hE : isEAN (jsTrim code) <;> cases hS : isSKU (jsTrim code) <;>
    cases hM : isModel (jsTrim code) <;>
      simp only [hE, hS, hM, Bool.false_eq_true, if_false, if_true, List.singleton_append,
        List.nil_append, List.cons_append, List.append_nil]
  all_goals
    repeat
      first
      | exact ⟨[], rfl⟩
      | apply step_leads

theorem resolve_good (netV : NetV) (netP : NetP) (code : String) :
    ∀ r, (resolveHandleFromCode netV netP code).1 = Except.ok (some r) →
      GoodTrace (querySucceeds netV netP) (resolveHandleFromCode netV netP code).2 := by
  unfold resolveHandleFromCode
  cases hE : isEAN (jsTrim code) <;> cases hS : isSKU (jsTrim code) <;>
    cases hM : isModel (jsTrim code) <;>
      simp only [hE, hS, hM, Bool.false_eq_true, if_false, if_true]
  all_goals
    repeat
      first
      | exact base_good
      | apply step_good tryVariant_hit tryVariant_miss
      | apply step_good tryProduct_hit tryProduct_miss

theorem sku_before_model {netV : NetV} {netP : NetP} {code : String}
    (hS : isSKU (jsTrim code) = true) (hM : isModel (jsTrim code) = true) :
    ∀ (j : Nat) (q : GQLQuery), (resolveHandleFromCode netV netP code).2[j]? = some q →
      (q = GQLQuery.productQ (modelTagQuery (jsTrim code)) ∨
        q = GQLQuery.productQ (jsTrim code)) →
      ∃ i : Nat, i < j ∧ (resolveHandleFromCode netV netP code).2[i]? =
        some (GQLQuery.variantQ ("sku:" ++ jsTrim code)) := by
  obtain ⟨rest, hrest⟩ := resolve_leads netV netP code
  intro j q hjq hq
  have hjlen : j < (resolveHandleFromCode netV netP code).2.length := by
    rcases List.getElem?_eq_some_iff.mp hjq with ⟨h, _⟩
    exact h
  have htrace : ∀ i, i < (resolveHandleFromCode netV netP code).2.length →
      (resolveHandleFromCode netV netP code).2[i]? =
        (fullStrategyQueries (jsTrim code))[i]? := by
    intro i hi
    rw [← hrest, List.getElem?_append_left hi]
  have hfullj : (fullStrategyQueries (jsTrim code))[j]? = some q := by
    rw [← htrace j hjlen]
    exact hjq
  cases hE : isEAN (jsTrim code) with
  | false =>
    have hfull : fullStrategyQueries (jsTrim code) =
        GQLQuery.variantQ ("sku:" ++ jsTrim code) ::
          GQLQuery.productQ (modelTagQuery (jsTrim code)) ::
            GQLQuery.productQ (jsTrim code) :: [GQLQuery.productQ (jsTrim code)] := by
      simp [fullStrategyQueries, hE, hS, hM]
    rw [hfull] at hfullj
    rcases j with _ | j1
    · simp only [List.getElem?_cons_zero, Option.some.injEq] at hfullj
      rcases hq with h | h <;> rw [← hfullj] at h <;> simp at h
    · refine ⟨0, by omega, ?_⟩
      rw [htrace 0 (by omega), hfull]
      rfl
  | true =>
    have hfull : fullStrategyQueries (jsTrim code) =
        GQLQuery.variantQ ("barcode:" ++ jsTrim code) ::
          GQLQuery.variantQ ("sku:" ++ jsTrim code) ::
            GQLQuery.productQ (modelTagQuery (jsTrim code)) ::
              GQLQuery.productQ (jsTrim code) :: [GQLQuery.productQ (jsTrim code)] := by
      simp [fullStrategyQueries, hE, hS, hM]
    rw [hfull] at hfullj
    rcases j with _ | (_ | j2)
    · simp only [List.getElem?_cons_zero, Option.some.injEq] at hfullj
      rcases hq with h | h <;> rw [← hfullj] at h <;> simp at h
    · simp only [List.getElem?_cons_succ, List.getElem?_cons_zero, Option.some.injEq] at hfullj
      rcases hq with h | h <;> rw [← hfullj] at h <;> simp at h
    · refine ⟨1, by omega, ?_⟩
      rw [htrace 1 (by omega), hfull]
      rfl

/-- C4: for a candidate that is both model-shaped and SKU-shaped, the
cascade issues the `sku:<code>` variant lookup before any model strategy
query (the `tag:"Model: <code>"` lookup or the free-text product lookup);
more generally the issued-query trace is an initial segment of the fixed
strategy order (barcode, sku, model-tag, model-free-text, free-text), and a
successful resolution stops exactly at the first query whose reply yields a
product handle. -/
theorem resolveHandleFromCode_cascade_order (netV : NetV) (netP : NetP) (code : String)
    (hS : isSKU (jsTrim code) = true) (hM : isModel (jsTrim code) = true) :
    Leads (resolveHandleFromCode netV netP code).2 (fullStrategyQueries (jsTrim code)) ∧
      (∀ r, (resolveHandleFromCode netV netP code).1 = Except.ok (some r) →
        GoodTrace (querySucceeds netV netP) (resolveHandleFromCode netV netP code).2) ∧
      (∀ (j : Nat) (q : GQLQuery), (resolveHandleFromCode netV netP code).2[j]? = some q →
        (q = GQLQuery.productQ (modelTagQuery (jsTrim code)) ∨
          q = GQLQuery.productQ (jsTrim code)) →
        ∃ i : Nat, i < j ∧ (resolveHandleFromCode netV netP code).2[i]? =
          some (GQLQuery.variantQ ("sku:" ++ jsTrim code))) :=
  ⟨resolve_leads netV netP code, resolve_good netV netP code, sku_before_model hS hM⟩

/-- Witness for C4 at a concrete SKU-and-model-shaped code with a
matchless gateway. -/
theorem resolveHandleFromCode_cascade_order_witness :
    Leads (resolveHandleFromCode netVMiss netPMiss "123456").2
      (fullStrategyQueries (jsTrim "123456")) :=
  (resolveHandleFromCode_cascade_order netVMiss netPMiss "123456"
    (by decide) (by decide)).1

/-!
## Claim theorems: the route handlers
-/

theorem loopResolve_all_miss {netV : NetV} {netP : NetP} {l : List String}
    (h : ∀ cand ∈ l, (resolveHandleFromCode netV netP cand).1 = Except.ok none) :
    loopResolve netV netP l = Except.ok none := by
  induction l with
  | nil => rfl
  | cons cand rest ih =>
    have hc := h cand (List.mem_cons_self cand rest)
    simp only [loopResolve, hc]
    exact ih fun c hcm => h c (List.mem_cons_of_mem _ hcm)

/-- C3: when the raw input is present and JS-truthy and every candidate's
resolution completes without a match, the JSON operation answers with a
null handle, source `"fallback:search"`, the full ordered tried list, and
the search-endpoint URL built from the URL-encoded trimmed raw input. -/
theorem scanLookup_fallback (netV : NetV) (netP : NetP) (raw : String)
    (hraw : raw ≠ "")
    (hmiss : ∀ cand ∈ extractCandidates (some raw),
      (resolveHandleFromCode netV netP cand).1 = Except.ok none) :
    scanLookup netV netP (some raw) =
      ScanResponse.json none none "fallback:search"
        ("https://decathlon.re/search?q=" ++ encodeURIComponent (jsTrim raw))
        (extractCandidates (some raw)) := by
  have hb : (raw == "") = false := beq_eq_false_iff_ne.mpr hraw
  unfold scanLookup
  simp only [hb, Bool.false_eq_true, if_false, loopResolve_all_miss hmiss, searchUrl]

/-- Witness for C3 at a concrete input with a matchless gateway. -/
theorem scanLookup_fallback_witness :
    scanLookup netVMiss netPMiss (some "ABCDE") =
      ScanResponse.json none none "fallback:search"
        ("https://decathlon.re/search?q=" ++ encodeURIComponent (jsTrim "ABCDE"))
        (extractCandidates (some "ABCDE")) :=
  scanLookup_fallback netVMiss netPMiss "ABCDE" (by decide) (by decide)

/-- C8: the gateway raises exactly on transport failure or an `errors`
field in the response envelope; when the candidate loop ends in such an
exception, the JSON operation surfaces the generic lookup-failure status
while the redirect operation degrades to the search-fallback redirect. -/
theorem gateway_error_handling (netV : NetV) (netP : NetP) (raw : String)
    (hraw : raw ≠ "")
    (herr : loopResolve netV netP (extractCandidates (some raw)) = Except.error ()) :
    (∀ (α : Type) (net : Option (Envelope α)),
      adminGQL net = Except.error () ↔
        net = none ∨ ∃ j, net = some j ∧ j.errors.isSome = true) ∧
      scanLookup netV netP (some raw) = ScanResponse.serverError ∧
      rHandler netV netP (some raw) = RResponse.redirect (searchUrl raw) := by
  have hb : (raw == "") = false := beq_eq_false_iff_ne.mpr hraw
  refine ⟨?_, ?_, ?_⟩
  · intro α net
    constructor
    · intro h
      cases net with
      | none => exact Or.inl rfl
      | some j =>
        refine Or.inr ⟨j, rfl, ?_⟩
        unfold adminGQL at h
        dsimp only at h
        by_cases hje : j.errors.isSome
        · exact hje
        · rw [if_neg hje] at h
          exact absurd h (by simp)
    · intro h
      rcases h with rfl | ⟨j, rfl, hje⟩
      · rfl
      · unfold adminGQL
        dsimp only
        rw [if_pos hje]
  · unfold scanLookup
    simp only [hb, Bool.false_eq_true, if_false, herr]
  · unfold rHandler
    simp only [hb, Bool.false_eq_true, if_false, herr]

/-- Witness for C8 at a concrete input with a failing transport. -/
theorem gateway_error_handling_witness :
    scanLookup netVDown netPDown (some "ABCDE") = ScanResponse.serverError ∧
      rHandler netVDown netPDown (some "ABCDE") = RResponse.redirect (searchUrl "ABCDE") :=
  ⟨(gateway_error_handling netVDown netPDown "ABCDE" (by decide) (by decide)).2.1,
    (gateway_error_handling netVDown netPDown "ABCDE" (by decide) (by decide)).2.2⟩

/-- C9 counterexample: a resolution whose matched product has no variant at
all produces a product URL with no `?variant=` component (it contains no
`?` character), refuting the claim that every successful resolution's URL
has the `...?variant=<shortVariantId>` shape. -/
theorem productUrl_no_variant_cex :
    scanLookup netVMiss netPNoVariant (some "ABCDE") =
      ScanResponse.json (some "bare-product") none "search:any"
        "https://decathlon.re/products/bare-product" ["ABCDE"] ∧
      "https://decathlon.re/products/bare-product".data.contains '?' = false :=
  ⟨by decide, by decide⟩

/-- C9 (amended): when the winning resolution carries a variant id whose
trailing `/`-segment is non-empty, both operations build
`<base>/products/<handle>?variant=<short>` where `<short>` is that
trailing segment of the gateway's `/`-delimited variant identifier;
without a variant id the `?variant=` component is omitted. -/
theorem productUrl_variant_shape (netV : NetV) (netP : NetP) (raw : String) (r : Resolution)
    (vid : String) (hraw : raw ≠ "")
    (hres : loopResolve netV netP (extractCandidates (some raw)) = Except.ok (some r))
    (hvid : r.variantId = some vid) (hshort : jsSplitPop vid ≠ "") :
    scanLookup netV netP (some raw) =
      ScanResponse.json (some r.handle) (some vid) r.source
        ("https://decathlon.re/products/" ++ r.handle ++ "?variant=" ++ jsSplitPop vid)
        (extractCandidates (some raw)) ∧
      rHandler netV netP (some raw) =
        RResponse.redirect
          ("https://decathlon.re/products/" ++ r.handle ++ "?variant=" ++ jsSplitPop vid) := by
  have hb : (raw == "") = false := beq_eq_false_iff_ne.mpr hraw
  have hurl : buildProductUrl r.handle (some vid) =
      "https://decathlon.re/products/" ++ r.handle ++ "?variant=" ++ jsSplitPop vid := by
    unfold buildProductUrl
    simp only [beq_eq_false_iff_ne.mpr hshort, Bool.false_eq_true, if_false]
  constructor
  · unfold scanLookup
    simp only [hb, Bool.false_eq_true, if_false, hres, hvid, hurl]
  · unfold rHandler
    simp only [hb, Bool.false_eq_true, if_false, hres, hvid, hurl]

/-- Witness for C9 (amended) at a concrete variant-carrying resolution. -/
theorem productUrl_variant_shape_witness :
    scanLookup netVHit netPMiss (some "ABCDE") =
      ScanResponse.json (some "some-product") (some "gid://shopify/ProductVariant/12345") "sku"
        ("https://decathlon.re/products/" ++ "some-product" ++ "?variant=" ++
          jsSplitPop "gid://shopify/ProductVariant/12345")
        (extractCandidates (some "ABCDE")) ∧
      rHandler netVHit netPMiss (some "ABCDE") =
        RResponse.redirect
          ("https://decathlon.re/products/" ++ "some-product" ++ "?variant=" ++
            jsSplitPop "gid://shopify/ProductVariant/12345") :=
  productUrl_variant_shape netVHit netPMiss "ABCDE"
    { handle := "some-product", variantId := some "gid://shopify/ProductVariant/12345",
      source := "sku" }
    "gid://shopify/ProductVariant/12345" (by decide) (by decide) rfl (by decide)
